import Mathlib

/-!
# Verification of the wp2octopress exporter

Shallow embedding of `wp2octopress.py`, a batch tool that exports posts and
pages from a WordPress database to Octopress-compatible markdown files.

Modelling conventions:
* Python strings are Lean `String`s; character-level operations (`str.replace`,
  `str.lstrip().rstrip()`, `in`, comprehension filters) are modelled on the
  underlying `List Char` so that every definition reduces in the kernel.
* `str.isalnum` is modelled by `Char.isAlphanum`; the same predicate is used
  uniformly on both the code side and the property side.
* `str(n)` on a non-negative Python int is `Nat.repr`.
* The process-global `missing_name_count` is threaded explicitly: every
  function that (transitively) calls `missing_name_check` takes the counter
  before the call and returns the counter after it.
* Dictionary lookup failures (`WP_COMMENTS[...]`, `WP_PUBLISH[...]`), the
  `assert` in `_get_taxonomy`, and Python call-arity errors are modelled with
  `Except` / explicit error constructors.
* File writes are modelled by returning the file name/relative path and the
  exact string content written.
-/

namespace WP

/-- A row of the main post/page query (`SQL_GET_POST`): one record of
`wp_posts` joined with the author display name. Dates are modelled by their
`str()` rendering, which is all the program ever uses. -/
structure Post where
  id : Nat
  post_title : String
  post_type : String
  post_status : String
  post_name : String
  post_date : String
  post_modified : String
  post_content : String
  comment_status : String
  author : String
deriving Repr, DecidableEq

/-- Errors that abort the run: a failed dictionary lookup (`KeyError`),
a failed `assert`, or a call with the wrong number of arguments
(`TypeError`). -/
inductive RunError where
  | keyError (table : String) (key : String)
  | assertFailed
deriving Repr, DecidableEq

/-- `WP_COMMENTS = {"closed": "false", "open": "true"}` as a partial lookup. -/
def WP_COMMENTS (s : String) : Option String :=
  if s = "closed" then some "false"
  else if s = "open" then some "true"
  else none

/-- `WP_PUBLISH = {"draft": "false", "auto-draft": "false", "publish": "true"}`
as a partial lookup. -/
def WP_PUBLISH (s : String) : Option String :=
  if s = "draft" then some "false"
  else if s = "auto-draft" then some "false"
  else if s = "publish" then some "true"
  else none

/-- Python `s.replace("\r\n", "\n")` on the character list: non-overlapping
replacement, scanning left to right. -/
def crlfToLf : List Char → List Char
  | [] => []
  | '\r' :: '\n' :: rest => '\n' :: crlfToLf rest
  | c :: rest => c :: crlfToLf rest

/-- `fix_post_content`: normalizes Windows line endings. (The commented-out
shortcode substitutions in the source are dead code and not modelled.) -/
def fix_post_content (post_content : String) : String :=
  String.mk (crlfToLf post_content.data)

/-- Python `s.lstrip().rstrip()`: drop whitespace from both ends. -/
def strip_chars (l : List Char) : List Char :=
  ((l.dropWhile Char.isWhitespace).reverse.dropWhile Char.isWhitespace).reverse

/-- The title sanitizer used (verbatim, twice) in `missing_name_check` and
`refine_file_name`:
`"".join([ch for ch in title.replace(" ", "-") if ch.isalnum() or ch == "-"])`. -/
def title_to_name (title : String) : String :=
  String.mk ((title.data.map (fun c => if c = ' ' then '-' else c)).filter
    (fun c => c.isAlphanum || c = '-'))

/-- The generated fallback name `"missing-name-" + str(missing_name_count)`. -/
def missingName (n : Nat) : String :=
  "missing-name-" ++ Nat.repr n

/-- Result of one `missing_name_check` call: the resolved name, whether a
warning was written to stderr, and the value of the global
`missing_name_count` after the call. -/
structure NameResult where
  name : String
  warned : Bool
  counter : Nat
deriving Repr, DecidableEq

/-- `missing_name_check(post)` with the global counter threaded explicitly. -/
def missing_name_check (missing_name_count : Nat) (post : Post) : NameResult :=
  if (strip_chars post.post_name.data).isEmpty || post.post_name.data.contains '%' then
    let name := title_to_name post.post_title
    if (strip_chars name.data).isEmpty then
      { name := missingName missing_name_count, warned := true,
        counter := missing_name_count + 1 }
    else
      { name := name, warned := true, counter := missing_name_count }
  else
    { name := post.post_name, warned := false, counter := missing_name_count }

/-- Does `missing_name_check` on this record reach the generated-name
fallback?  (Determined by the record alone, not by the counter.) -/
def usesFallback (post : Post) : Bool :=
  ((strip_chars post.post_name.data).isEmpty || post.post_name.data.contains '%') &&
    (strip_chars (title_to_name post.post_title).data).isEmpty

/-- The sequence of `missing_name_check` results over a list of records,
threading the global counter left to right. -/
def resolveAll (missing_name_count : Nat) : List Post → List NameResult
  | [] => []
  | p :: ps =>
    let r := missing_name_check missing_name_count p
    r :: resolveAll r.counter ps

/-- Python `", ".join(l)` / `"\n".join(l)`. -/
def joinSep (sep : String) : List String → String
  | [] => ""
  | [x] => x
  | x :: y :: xs => x ++ sep ++ joinSep sep (y :: xs)

/-- Python `s[:-3]` (used on `str(page.post_date)`). -/
def dropLast3 (s : String) : String :=
  String.mk (s.data.take (s.data.length - 3))

/-- The page file written by `dump_single_page`: the subdirectory (named by
the resolved page name) containing `index.md`, and the exact content. -/
structure PageFile where
  dir : String
  filename : String
  content : String
deriving Repr, DecidableEq

/-- The content template of `dump_single_page`. -/
def page_content (title dateStr comments fixed : String) : String :=
  "---\nlayout: page\ntitle: \"" ++ title ++ "\"\ndate: " ++ dateStr ++
    "\ncomments: " ++ comments ++ "\nsharing: true\nfooter: true\n---\n" ++
    fixed ++ "\n"

/-- `dump_single_page(page, output_dir)`: resolves the name, then writes
`<output_dir>/<name>/index.md`.  An unknown comment status raises `KeyError`.
The page's publish status is never consulted. -/
def dump_single_page (missing_name_count : Nat) (page : Post) :
    Except RunError (PageFile × Nat) :=
  let r := missing_name_check missing_name_count page
  match WP_COMMENTS page.comment_status with
  | none => .error (.keyError "WP_COMMENTS" page.comment_status)
  | some comments =>
    .ok ({ dir := r.name, filename := "index.md",
           content := page_content page.post_title (dropLast3 page.post_date)
             comments (fix_post_content page.post_content) }, r.counter)

/-- `refine_file_name(post)`: `f"{post.id}-{sanitized title}.md"`. -/
def refine_file_name (post : Post) : String :=
  Nat.repr post.id ++ "-" ++ title_to_name post.post_title ++ ".md"

/-- The post file written by `dump_single_post`: its name and exact content. -/
structure PostFile where
  filename : String
  content : String
deriving Repr, DecidableEq

/-- The `output_params` tuple of `dump_single_post`: the header field lines,
in order.  `tagNames`/`catNames` are the already-looked-up
`post_tags.get(post.id) or []` / `post_categories.get(post.id) or []`. -/
def post_header_fields (post : Post) (resolved : String)
    (tagNames catNames : List String) (comments published : String) :
    List String :=
  [ "wp_post_id: " ++ Nat.repr post.id,
    "title: \"" ++ post.post_title ++ "\"",
    "slug: " ++ resolved,
    "date: " ++ post.post_date,
    "lastmod: " ++ post.post_modified,
    "author: \"" ++ post.author ++ "\"",
    "tags: [" ++ joinSep ", " tagNames ++ "]",
    "categories: [" ++ joinSep ", " catNames ++ "]",
    "comments: " ++ comments,
    "published: " ++ published ]

/-- Association list with `defaultdict(list)` behaviour: `dictAppend` models
`d[k].append(v)` (updates the entry in place, or adds a new key at the end);
`dictGet` models `d.get(k)`. -/
def dictAppend : List (Nat × List String) → Nat → String → List (Nat × List String)
  | [], k, v => [(k, [v])]
  | (k', vs) :: rest, k, v =>
    if k' = k then (k', vs ++ [v]) :: rest
    else (k', vs) :: dictAppend rest k v

/-- `d.get(k)`: `none` when the key is absent. -/
def dictGet : List (Nat × List String) → Nat → Option (List String)
  | [], _ => none
  | (k', vs) :: rest, k => if k' = k then some vs else dictGet rest k

/-- `d.get(k) or []`: the empty list both for an absent key and for a stored
empty list. -/
def dictGetD (d : List (Nat × List String)) (k : Nat) : List String :=
  (dictGet d k).getD []

/-- `dump_single_post(post, post_categories, post_tags, output_dir)`.
The resolved name is computed first (advancing the counter), the file name
comes from `refine_file_name`, and the header tuple evaluates the
`WP_COMMENTS` lookup before the `WP_PUBLISH` lookup, each raising `KeyError`
on an unknown status. -/
def dump_single_post (missing_name_count : Nat) (post : Post)
    (post_categories post_tags : List (Nat × List String)) :
    Except RunError (PostFile × Nat) :=
  let r := missing_name_check missing_name_count post
  let filename := refine_file_name post
  match WP_COMMENTS post.comment_status with
  | none => .error (.keyError "WP_COMMENTS" post.comment_status)
  | some comments =>
    match WP_PUBLISH post.post_status with
    | none => .error (.keyError "WP_PUBLISH" post.post_status)
    | some published =>
      .ok ({ filename := filename,
             content := "---\n" ++
               joinSep "\n" (post_header_fields post r.name
                 (dictGetD post_tags post.id) (dictGetD post_categories post.id)
                 comments published) ++
               "\n---\n" ++ fix_post_content post.post_content }, r.counter)

/-- A row of the taxonomy query `SQL_GET_TAXONOMY`: the selected columns
(`object_id AS id`, `name`, `taxonomy AS type`) together with the joined
`wp_posts` columns the `WHERE` clause reads. -/
structure TaxRow where
  object_id : Nat
  name : String
  type : String
  post_type : String
  post_status : String
deriving Repr, DecidableEq

/-- The `WHERE` clause of `SQL_GET_TAXONOMY`:
`taxonomy IN ('category','post_tag') AND post_type='post' AND
post_status!='inherit'`. -/
def taxWhere (r : TaxRow) : Bool :=
  (r.type = "category" || r.type = "post_tag") &&
    r.post_type = "post" && !(r.post_status = "inherit")

/-- `ORDER BY id, type` comparison. -/
def taxLE (r s : TaxRow) : Bool :=
  r.object_id < s.object_id || (r.object_id = s.object_id && r.type ≤ s.type)

/-- Insertion of one row into a sorted list (insertion sort models the SQL
`ORDER BY`; SQL does not fix the relative order of equal keys, and no claim
depends on it). -/
def insertRow (r : TaxRow) : List TaxRow → List TaxRow
  | [] => [r]
  | x :: xs => if taxLE r x then r :: x :: xs else x :: insertRow r xs

/-- Sorting the taxonomy rows. -/
def sortRows : List TaxRow → List TaxRow
  | [] => []
  | x :: xs => insertRow x (sortRows xs)

/-- The result set of `SQL_GET_TAXONOMY` over a table of candidate rows:
the `WHERE` filter followed by `ORDER BY id, type`. -/
def sqlTaxonomyRows (table : List TaxRow) : List TaxRow :=
  sortRows (table.filter taxWhere)

/-- The pair of `defaultdict(list)` mappings built by `_get_taxonomy`. -/
structure TaxDicts where
  cats : List (Nat × List String)
  tags : List (Nat × List String)
deriving Repr, DecidableEq

/-- The empty `defaultdict` pair. -/
def emptyDicts : TaxDicts := { cats := [], tags := [] }

/-- One iteration of the row loop in `_get_taxonomy`: `category` rows feed
`post_categories`, otherwise the row must be a `post_tag` row (the `assert`)
and feeds `post_tags`. -/
def taxStep (acc : TaxDicts) (r : TaxRow) : Except RunError TaxDicts :=
  if r.type = "category" then
    .ok { acc with cats := dictAppend acc.cats r.object_id r.name }
  else if r.type = "post_tag" then
    .ok { acc with tags := dictAppend acc.tags r.object_id r.name }
  else
    .error .assertFailed

/-- The row loop of `_get_taxonomy`. -/
def taxLoop (acc : TaxDicts) : List TaxRow → Except RunError TaxDicts
  | [] => .ok acc
  | r :: rs =>
    match taxStep acc r with
    | .error e => .error e
    | .ok acc' => taxLoop acc' rs

/-- `_get_taxonomy(db)`: runs `SQL_GET_TAXONOMY` over the joined tables and
groups the rows into the two mappings. -/
def _get_taxonomy (table : List TaxRow) : Except RunError TaxDicts :=
  taxLoop emptyDicts (sqlTaxonomyRows table)

/-- One output file of the run. -/
inductive OutFile where
  | post (f : PostFile)
  | page (f : PageFile)
deriving Repr, DecidableEq

/-- The dispatch loop of `dump_posts` over the rows of `SQL_GET_POST`:
`post` rows go to the Post Writer, `page` rows to the Page Writer, other
types are skipped; the first uncaught error aborts the run. -/
def dump_posts_rows (post_categories post_tags : List (Nat × List String)) :
    Nat → List Post → Except RunError (List OutFile × Nat)
  | c, [] => .ok ([], c)
  | c, p :: ps =>
    if p.post_type = "post" then
      match dump_single_post c p post_categories post_tags with
      | .error e => .error e
      | .ok (f, c') =>
        match dump_posts_rows post_categories post_tags c' ps with
        | .error e => .error e
        | .ok (fs, c'') => .ok (.post f :: fs, c'')
    else if p.post_type = "page" then
      match dump_single_page c p with
      | .error e => .error e
      | .ok (f, c') =>
        match dump_posts_rows post_categories post_tags c' ps with
        | .error e => .error e
        | .ok (fs, c'') => .ok (.page f :: fs, c'')
    else dump_posts_rows post_categories post_tags c ps

/-- Reference decimal rendering of a natural number, used to reason about
`Nat.repr` (they are proved equal below). -/
def decChars (n : Nat) : List Char :=
  if n < 10 then [Nat.digitChar n]
  else decChars (n / 10) ++ [Nat.digitChar (n % 10)]
decreasing_by exact Nat.div_lt_self (by omega) (by omega)

/-- Split a character list into lines at `'\n'` (the semantics of
`str.split("\n")`: a trailing newline yields a final empty line). -/
def splitLines : List Char → List (List Char)
  | [] => [[]]
  | c :: cs =>
    if c = '\n' then [] :: splitLines cs
    else (c :: (splitLines cs).headD []) :: (splitLines cs).tail

/-- Re-join lines with `'\n'`; inverse of `splitLines`. -/
def joinLines : List (List Char) → List Char
  | [] => []
  | [l] => l
  | l :: l' :: ls => l ++ '\n' :: joinLines (l' :: ls)

/-- Split a list of lines at the first occurrence of `marker`, returning the
lines before it and the lines after it. -/
def splitAtMarker (marker : List Char) :
    List (List Char) → Option (List (List Char) × List (List Char))
  | [] => none
  | l :: ls =>
    if l = marker then some ([], ls)
    else
      match splitAtMarker marker ls with
      | none => none
      | some (pre, suf) => some (l :: pre, suf)

/-- The pseudo-field name of a header line: everything before the first
`':'`. -/
def fieldNameOf (line : List Char) : List Char :=
  line.takeWhile (fun c => c != ':')

/-- Parse a written page file back: the first line must be `---`, the header
block runs to the next `---` line, and the body is everything after it.
Returns the header pseudo-field names (in order) and the body. -/
def parse_page_file (s : String) : Option (List (List Char) × String) :=
  if (splitLines s.data).headD [] = "---".data then
    (splitAtMarker "---".data (splitLines s.data).tail).map
      (fun pr => (pr.1.map fieldNameOf, String.mk (joinLines pr.2)))
  else none

/-- The six pseudo-field names of the page front matter, in template order. -/
def pageFieldNames : List (List Char) :=
  ["layout".data, "title".data, "date".data, "comments".data,
   "sharing".data, "footer".data]

/-- Outcome of `main`: print the usage line and exit 0; abort with a
`TypeError` because `dump_posts` was called with the wrong number of
arguments; or invoke `dump_posts` with the six given arguments. -/
inductive MainResult where
  | usage
  | arityError
  | ran (args : List String)
deriving Repr, DecidableEq

/-- Calling `dump_posts(*args)`: the function has exactly six required
positional parameters, so any other argument count raises `TypeError`
before its body (directory creation, database access) runs. -/
def call_dump_posts (args : List String) : MainResult :=
  if args.length = 6 then .ran args else .arityError

/-- `main()`: `if len(sys.argv) < 6: print(USAGE); return 0` else
`dump_posts(*sys.argv[1:])`. -/
def main (argv : List String) : MainResult :=
  if argv.length < 6 then .usage else call_dump_posts argv.tail

/-! ## Arithmetic of the decimal rendering

`Nat.repr` (the model of Python `str` on a non-negative int) agrees with the
structurally recursive `decChars`, which is proved injective and
digit-only. -/

theorem decChars_lt {n : Nat} (h : n < 10) : decChars n = [Nat.digitChar n] := by
  rw [decChars, if_pos h]

theorem decChars_ge {n : Nat} (h : ¬ n < 10) :
    decChars n = decChars (n / 10) ++ [Nat.digitChar (n % 10)] := by
  conv_lhs => rw [decChars]
  rw [if_neg h]

theorem toDigitsCore_eq_decChars :
    ∀ (fuel n : Nat) (ds : List Char), n < fuel →
      Nat.toDigitsCore 10 fuel n ds = decChars n ++ ds := by
  intro fuel
  induction fuel with
  | zero => intro n ds h; omega
  | succ f ih =>
    intro n ds h
    rw [Nat.toDigitsCore]
    by_cases hz : n / 10 = 0
    · have hn : n < 10 := by omega
      rw [if_pos hz, decChars_lt hn, Nat.mod_eq_of_lt hn]
      rfl
    · have hn : ¬ n < 10 := by omega
      rw [if_neg hz, ih (n / 10) _ (by omega), decChars_ge hn, List.append_assoc]
      rfl

theorem repr_eq_decChars (n : Nat) : Nat.repr n = String.mk (decChars n) := by
  show (Nat.toDigits 10 n).asString = _
  rw [Nat.toDigits, toDigitsCore_eq_decChars (n + 1) n [] (by omega)]
  simp [List.asString]

theorem digitChar_inj_lt (a b : Nat) (ha : a < 10) (hb : b < 10)
    (h : Nat.digitChar a = Nat.digitChar b) : a = b := by
  have key : ∀ x y : Fin 10, Nat.digitChar x.val = Nat.digitChar y.val → x = y := by decide
  exact congrArg Fin.val (key ⟨a, ha⟩ ⟨b, hb⟩ h)

theorem decChars_ne_nil (n : Nat) : decChars n ≠ [] := by
  by_cases h : n < 10
  · rw [decChars_lt h]; simp
  · rw [decChars_ge h]; simp

theorem decChars_inj : ∀ a b : Nat, decChars a = decChars b → a = b := by
  intro a
  induction a using Nat.strong_induction_on with
  | _ a ih =>
    intro b h
    by_cases ha : a < 10 <;> by_cases hb : b < 10
    · rw [decChars_lt ha, decChars_lt hb] at h
      exact digitChar_inj_lt a b ha hb (by simpa using h)
    · rw [decChars_lt ha, decChars_ge hb] at h
      have hlen := congrArg List.length h
      simp at hlen
      exact absurd hlen (decChars_ne_nil _)
    · rw [decChars_ge ha, decChars_lt hb] at h
      have hlen := congrArg List.length h
      simp at hlen
      exact absurd hlen (decChars_ne_nil _)
    · rw [decChars_ge ha, decChars_ge hb] at h
      obtain ⟨h1, h2⟩ := List.append_inj' h (by simp)
      have hdiv : a / 10 = b / 10 :=
        ih (a / 10) (Nat.div_lt_self (by omega) (by omega)) _ h1
      simp only [List.cons.injEq, and_true] at h2
      have hmod : a % 10 = b % 10 :=
        digitChar_inj_lt _ _ (Nat.mod_lt _ (by omega)) (Nat.mod_lt _ (by omega)) h2
      omega

theorem repr_inj {a b : Nat} (h : Nat.repr a = Nat.repr b) : a = b := by
  rw [repr_eq_decChars, repr_eq_decChars] at h
  exact decChars_inj a b (by injection h)

theorem missingName_inj {a b : Nat} (h : missingName a = missingName b) : a = b := by
  have hd : (("missing-name-" : String) ++ Nat.repr a).data =
      (("missing-name-" : String) ++ Nat.repr b).data := congrArg String.data h
  rw [String.data_append, String.data_append] at hd
  exact repr_inj (congrArg String.mk (List.append_cancel_left hd))

theorem decChars_alnum : ∀ n : Nat, ∀ ch ∈ decChars n, ch.isAlphanum = true := by
  have key : ∀ x : Fin 10, (Nat.digitChar x.val).isAlphanum = true := by decide
  intro n
  induction n using Nat.strong_induction_on with
  | _ n ih =>
    intro ch hch
    by_cases h : n < 10
    · rw [decChars_lt h] at hch
      simp at hch
      exact hch ▸ key ⟨n, h⟩
    · rw [decChars_ge h] at hch
      rcases List.mem_append.mp hch with h1 | h2
      · exact ih (n / 10) (Nat.div_lt_self (by omega) (by omega)) ch h1
      · simp at h2
        exact h2 ▸ key ⟨n % 10, Nat.mod_lt _ (by omega)⟩


/-! ## Claim theorems -/

/-- C1: for every record whose slug, after trimming surrounding whitespace, is
non-empty and contains no `%`, `missing_name_check` returns the stored slug
unchanged (surrounding whitespace included), emits no diagnostic, and leaves
the fallback counter untouched. -/
theorem C1_good_slug_unchanged (c : Nat) (p : Post)
    (h1 : (strip_chars p.post_name.data).isEmpty = false)
    (h2 : p.post_name.data.contains '%' = false) :
    missing_name_check c p = { name := p.post_name, warned := false, counter := c } := by
  unfold missing_name_check
  rw [h1, h2]
  rfl

theorem C1_witness :
    missing_name_check 3
      { id := 1, post_title := "T", post_type := "post", post_status := "publish",
        post_name := " my-post ", post_date := "d", post_modified := "d",
        post_content := "b", comment_status := "open", author := "A" } =
    { name := " my-post ", warned := false, counter := 3 } :=
  C1_good_slug_unchanged 3 _ (by decide) (by decide)

/-- C9: invoking the program with exactly five arguments after the program
name (`argv.length = 6`) passes the `len(sys.argv) < 6` guard without printing
usage, and aborts with an argument-count error when `dump_posts` is called
with its last positional parameter missing, before any export work. -/
theorem C9_five_args_arity_error (argv : List String) (h : argv.length = 6) :
    main argv = .arityError ∧ main argv ≠ .usage ∧ ∀ a, main argv ≠ .ran a := by
  have hm : main argv = .arityError := by
    unfold main call_dump_posts
    rw [if_neg (by omega)]
    have ht : argv.tail.length = 5 := by
      cases argv with
      | nil => simp at h
      | cons x xs => simp at h ⊢; omega
    rw [if_neg (by omega)]
  refine ⟨hm, ?_, ?_⟩
  · rw [hm]; intro hh; cases hh
  · intro a; rw [hm]; intro hh; cases hh

theorem C9_witness :
    main ["prog", "db", "host", "user", "pass", "posts"] = .arityError :=
  (C9_five_args_arity_error _ (by decide)).1

/-- C10: the Page Writer never consults the publish-status lookup: its result
is independent of `post_status` (so a page with status outside the known
publish set is written successfully whenever its comment status is known),
while an unknown comment status raises the fatal `WP_COMMENTS` lookup error. -/
theorem C10_page_ignores_publish (c : Nat) (p : Post) :
    (∀ s : String, dump_single_page c { p with post_status := s } = dump_single_page c p) ∧
    (∀ v : String, WP_COMMENTS p.comment_status = some v →
      ∃ out, dump_single_page c p = .ok out) ∧
    (WP_COMMENTS p.comment_status = none →
      dump_single_page c p = .error (.keyError "WP_COMMENTS" p.comment_status)) := by
  refine ⟨?_, ?_, ?_⟩
  · intro s; cases p; rfl
  · intro v h; unfold dump_single_page; rw [h]; exact ⟨_, rfl⟩
  · intro h; unfold dump_single_page; rw [h]


theorem C10_witness :
    (∃ out, dump_single_page 0
      { id := 7, post_title := "A", post_type := "page", post_status := "private",
        post_name := "a", post_date := "2020-01-01 00:00:00", post_modified := "d",
        post_content := "hello", comment_status := "open", author := "A" } = .ok out) ∧
    dump_single_page 0
      { id := 8, post_title := "B", post_type := "page", post_status := "publish",
        post_name := "b", post_date := "d", post_modified := "d",
        post_content := "x", comment_status := "spam", author := "A" } =
      .error (.keyError "WP_COMMENTS" "spam") :=
  ⟨(C10_page_ignores_publish 0 _).2.1 "true" rfl,
   (C10_page_ignores_publish 0 _).2.2 rfl⟩

/-- C5: for every record whose slug is empty after trimming or contains `%`,
the resolved name is non-empty and consists only of alphanumeric characters
and hyphens (covering both the title-derived candidate and the generated
`missing-name-N` fallback). -/
theorem C5_bad_slug_resolved_name_safe (c : Nat) (p : Post)
    (h : ((strip_chars p.post_name.data).isEmpty || p.post_name.data.contains '%') = true) :
    (missing_name_check c p).name ≠ "" ∧
    ∀ ch ∈ (missing_name_check c p).name.data, ch.isAlphanum = true ∨ ch = '-' := by
  unfold missing_name_check
  rw [if_pos h]
  by_cases hin : (strip_chars (title_to_name p.post_title).data).isEmpty
  · rw [if_pos hin]
    constructor
    · intro he
      have hd : (missingName c).data = ("" : String).data := congrArg String.data he
      rw [missingName] at hd
      rw [String.data_append] at hd
      simp [repr_eq_decChars] at hd
    · intro ch hch
      have hd : (missingName c).data = "missing-name-".data ++ decChars c := by
        rw [missingName, String.data_append, repr_eq_decChars]
      rw [hd] at hch
      rcases List.mem_append.mp hch with h1 | h2
      · have : ∀ x ∈ "missing-name-".data, x.isAlphanum = true ∨ x = '-' := by decide
        exact this ch h1
      · exact Or.inl (decChars_alnum c ch h2)
  · rw [if_neg hin]
    constructor
    · intro he
      have he' : title_to_name p.post_title = "" := he
      rw [he'] at hin
      exact hin (by decide)
    · intro ch hch
      have := List.mem_filter.mp hch
      simpa using this.2

theorem C5_witness :
    (missing_name_check 0
      { id := 2, post_title := "Hi there", post_type := "page", post_status := "publish",
        post_name := "about%20me", post_date := "d", post_modified := "d",
        post_content := "b", comment_status := "open", author := "A" }).name ≠ "" ∧
    ∀ ch ∈ (missing_name_check 0
      { id := 2, post_title := "Hi there", post_type := "page", post_status := "publish",
        post_name := "about%20me", post_date := "d", post_modified := "d",
        post_content := "b", comment_status := "open", author := "A" }).name.data,
      ch.isAlphanum = true ∨ ch = '-' :=
  C5_bad_slug_resolved_name_safe 0 _ (by decide)


/-- C2: the post file name is `<id>-<sanitized-title>.md`, independent of the
slug; the resolved name appears in the `slug:` header field (position 2) and
not in the file name; and the concrete scenario — id 42, title
"Hello, World!", empty slug, status publish, comment_status open, categories
["Tech"], tags [] — produces `42-Hello-World.md` with `published: true`,
`comments: true`, `tags: []`, `categories: [Tech]`. -/
theorem C2_filename_from_title_not_slug :
    (∀ (p : Post) (s : String), refine_file_name { p with post_name := s } = refine_file_name p) ∧
    (∀ (p : Post) (resolved : String) (tn cn : List String) (cm pb : String),
      (post_header_fields p resolved tn cn cm pb).get? 2 = some ("slug: " ++ resolved)) ∧
    (∀ (c : Nat) (p : Post) (cats tags : List (Nat × List String)) (f : PostFile) (c' : Nat),
      dump_single_post c p cats tags = .ok (f, c') → f.filename = refine_file_name p) ∧
    dump_single_post 0
      { id := 42, post_title := "Hello, World!", post_type := "post", post_status := "publish",
        post_name := "", post_date := "2020-01-02 03:04:05",
        post_modified := "2020-01-02 03:04:05", post_content := "Body",
        comment_status := "open", author := "Alice" }
      [(42, ["Tech"])] [] =
    .ok ({ filename := "42-Hello-World.md",
           content := "---\nwp_post_id: 42\ntitle: \"Hello, World!\"\nslug: Hello-World\ndate: 2020-01-02 03:04:05\nlastmod: 2020-01-02 03:04:05\nauthor: \"Alice\"\ntags: []\ncategories: [Tech]\ncomments: true\npublished: true\n---\nBody" }, 0) := by
  refine ⟨?_, ?_, ?_, rfl⟩
  · intro p s; cases p; rfl
  · intro p resolved tn cn cm pb; rfl
  · intro c p cats tags f c' hok
    unfold dump_single_post at hok
    cases hc : WP_COMMENTS p.comment_status with
    | none => rw [hc] at hok; cases hok
    | some v =>
      rw [hc] at hok
      cases hp : WP_PUBLISH p.post_status with
      | none => rw [hp] at hok; cases hok
      | some w =>
        rw [hp] at hok
        rw [Except.ok.injEq, Prod.mk.injEq] at hok
        rw [← hok.1]

theorem C2_witness :
    dump_single_post 3
      { id := 5, post_title := "A B", post_type := "post", post_status := "draft",
        post_name := "slug-here", post_date := "d", post_modified := "d",
        post_content := "x", comment_status := "closed", author := "A" } [] [] =
      .ok ({ filename := "5-A-B.md",
             content := "---\nwp_post_id: 5\ntitle: \"A B\"\nslug: slug-here\ndate: d\nlastmod: d\nauthor: \"A\"\ntags: []\ncategories: []\ncomments: false\npublished: false\n---\nx" }, 3) ∧
    ({ filename := "5-A-B.md",
       content := "---\nwp_post_id: 5\ntitle: \"A B\"\nslug: slug-here\ndate: d\nlastmod: d\nauthor: \"A\"\ntags: []\ncategories: []\ncomments: false\npublished: false\n---\nx" } : PostFile).filename =
      refine_file_name
      { id := 5, post_title := "A B", post_type := "post", post_status := "draft",
        post_name := "slug-here", post_date := "d", post_modified := "d",
        post_content := "x", comment_status := "closed", author := "A" } :=
  ⟨rfl, C2_filename_from_title_not_slug.2.2.1 3 _ [] [] _ 3 rfl⟩


theorem dump_single_post_error (c : Nat) (p : Post) (cats tags : List (Nat × List String))
    (h : WP_COMMENTS p.comment_status = none ∨ WP_PUBLISH p.post_status = none) :
    ∃ e, dump_single_post c p cats tags = .error e := by
  unfold dump_single_post
  rcases h with h | h
  · rw [h]; exact ⟨_, rfl⟩
  · cases hc : WP_COMMENTS p.comment_status with
    | none => exact ⟨_, rfl⟩
    | some v => rw [h]; exact ⟨_, rfl⟩

theorem dump_single_page_error (c : Nat) (p : Post)
    (h : WP_COMMENTS p.comment_status = none) :
    ∃ e, dump_single_page c p = .error e := by
  unfold dump_single_page
  rw [h]
  exact ⟨_, rfl⟩

/-- C4 (amended): `"private"` is outside the known publish set, and the run
aborts with a lookup error whenever it processes a post record whose comment
or publish status is unknown, or a page record whose comment status is
unknown.  (Pages never consult the publish table, so the publish-status part
of the original claim holds only for posts — see the counterexample.) -/
theorem C4_unknown_status_aborts_run :
    WP_PUBLISH "private" = none ∧
    ∀ (rows : List Post) (cats tags : List (Nat × List String)) (c : Nat),
      (∃ p ∈ rows,
        (p.post_type = "post" ∧
          (WP_COMMENTS p.comment_status = none ∨ WP_PUBLISH p.post_status = none)) ∨
        (p.post_type = "page" ∧ WP_COMMENTS p.comment_status = none)) →
      ∃ e, dump_posts_rows cats tags c rows = .error e := by
  refine ⟨rfl, ?_⟩
  intro rows cats tags
  induction rows with
  | nil => intro c h; obtain ⟨p, hp, -⟩ := h; cases hp
  | cons q qs ih =>
    intro c h
    obtain ⟨p, hp, hbad⟩ := h
    rcases List.mem_cons.mp hp with rfl | hmem
    · rcases hbad with ⟨hty, hlk⟩ | ⟨hty, hlk⟩
      · obtain ⟨e, he⟩ := dump_single_post_error c p cats tags hlk
        refine ⟨e, ?_⟩
        unfold dump_posts_rows
        rw [if_pos hty, he]
      · obtain ⟨e, he⟩ := dump_single_page_error c p hlk
        refine ⟨e, ?_⟩
        unfold dump_posts_rows
        have hq : ¬ p.post_type = "post" := by rw [hty]; decide
        rw [if_neg hq, if_pos hty, he]
    · by_cases h1 : q.post_type = "post"
      · cases hd : dump_single_post c q cats tags with
        | error e =>
          refine ⟨e, ?_⟩
          unfold dump_posts_rows
          rw [if_pos h1, hd]
        | ok res =>
          obtain ⟨f, c'⟩ := res
          obtain ⟨e, he⟩ := ih c' ⟨p, hmem, hbad⟩
          exact ⟨e, by simp [dump_posts_rows, h1, hd, he]⟩
      · by_cases h2 : q.post_type = "page"
        · cases hd : dump_single_page c q with
          | error e =>
            refine ⟨e, ?_⟩
            unfold dump_posts_rows
            rw [if_neg h1, if_pos h2, hd]
          | ok res =>
            obtain ⟨f, c'⟩ := res
            obtain ⟨e, he⟩ := ih c' ⟨p, hmem, hbad⟩
            exact ⟨e, by simp [dump_posts_rows, h1, h2, hd, he]⟩
        · obtain ⟨e, he⟩ := ih c ⟨p, hmem, hbad⟩
          refine ⟨e, ?_⟩
          unfold dump_posts_rows
          rw [if_neg h1, if_neg h2, he]

theorem C4_witness :
    ∃ e, dump_posts_rows [] [] 0
      [{ id := 10, post_title := "P", post_type := "post", post_status := "private",
         post_name := "p", post_date := "d", post_modified := "d",
         post_content := "x", comment_status := "open", author := "A" }] = .error e :=
  C4_unknown_status_aborts_run.2 _ [] [] 0
    ⟨_, List.mem_singleton_self _, Or.inl ⟨rfl, Or.inr rfl⟩⟩

/-- C4 counterexample: a page record with publish status `"private"` (outside
the known publish set) and known comment status is processed by the run
without any error, refuting the claim for page records. -/
theorem C4_counterexample :
    WP_PUBLISH "private" = none ∧
    dump_posts_rows [] [] 0
      [{ id := 7, post_title := "A", post_type := "page", post_status := "private",
         post_name := "a", post_date := "2020-01-01 00:00:00", post_modified := "d",
         post_content := "hello", comment_status := "open", author := "A" }] =
    .ok ([OutFile.page
      { dir := "a", filename := "index.md",
        content := "---\nlayout: page\ntitle: \"A\"\ndate: 2020-01-01 00:00\ncomments: true\nsharing: true\nfooter: true\n---\nhello\n" }], 0) :=
  ⟨rfl, rfl⟩


theorem mem_insertRow (a r : TaxRow) (l : List TaxRow) :
    a ∈ insertRow r l ↔ a = r ∨ a ∈ l := by
  induction l with
  | nil => simp [insertRow]
  | cons x xs ih =>
    unfold insertRow
    by_cases h : taxLE r x
    · rw [if_pos h]; simp
    · rw [if_neg h]; simp [ih]; tauto

theorem mem_sortRows (a : TaxRow) (l : List TaxRow) : a ∈ sortRows l ↔ a ∈ l := by
  induction l with
  | nil => simp [sortRows]
  | cons x xs ih => simp [sortRows, mem_insertRow, ih]

theorem mem_sqlTaxonomyRows_where {a : TaxRow} {table : List TaxRow}
    (h : a ∈ sqlTaxonomyRows table) : taxWhere a = true := by
  rw [sqlTaxonomyRows, mem_sortRows] at h
  exact (List.mem_filter.mp h).2

theorem taxWhere_type {r : TaxRow} (h : taxWhere r = true) :
    r.type = "category" ∨ r.type = "post_tag" := by
  unfold taxWhere at h
  simp only [Bool.and_eq_true, Bool.or_eq_true, decide_eq_true_eq] at h
  exact h.1.1

theorem dictGet_dictAppend (d : List (Nat × List String)) (k : Nat) (v : String) (i : Nat) :
    dictGet (dictAppend d k v) i =
      if i = k then some (dictGetD d k ++ [v]) else dictGet d i := by
  induction d with
  | nil =>
    by_cases h : i = k
    · subst h; simp [dictAppend, dictGet, dictGetD]
    · simp [dictAppend, dictGet, h]
      intro hk
      exact absurd hk.symm h
  | cons e rest ih =>
    obtain ⟨k', vs⟩ := e
    by_cases hk : k' = k
    · subst hk
      by_cases hi : i = k'
      · subst hi
        simp [dictAppend, dictGet, dictGetD]
      · simp [dictAppend, dictGet, hi]
        rw [if_neg (fun hh : k' = i => hi hh.symm), if_neg (fun hh : k' = i => hi hh.symm)]
    · by_cases hi : i = k
      · subst hi
        have hki : ¬ k' = i := fun hh => hk hh
        simp [dictAppend, dictGet, hk, hki, ih, dictGetD]
      · by_cases hki : k' = i
        · subst hki
          simp [dictAppend, dictGet, hk, hi]
        · simp [dictAppend, dictGet, hk, hki, hi, ih]

theorem dictGetD_dictAppend (d : List (Nat × List String)) (k : Nat) (v : String) (i : Nat) :
    dictGetD (dictAppend d k v) i =
      dictGetD d i ++ (if i = k then [v] else []) := by
  rw [dictGetD, dictGet_dictAppend]
  by_cases h : i = k
  · subst h; simp
  · simp [h, dictGetD]


theorem taxLoop_spec :
    ∀ (rows : List TaxRow) (acc : TaxDicts),
      (∀ r ∈ rows, r.type = "category" ∨ r.type = "post_tag") →
      ∃ d, taxLoop acc rows = .ok d ∧
        ∀ i : Nat,
          dictGetD d.cats i = dictGetD acc.cats i ++
            ((rows.filter (fun r => r.type == "category" && r.object_id == i)).map
              (fun r => r.name)) ∧
          dictGetD d.tags i = dictGetD acc.tags i ++
            ((rows.filter (fun r => r.type == "post_tag" && r.object_id == i)).map
              (fun r => r.name)) := by
  intro rows
  induction rows with
  | nil => intro acc _; exact ⟨acc, rfl, by simp [List.filter]⟩
  | cons r rs ih =>
    intro acc hty
    rcases hty r (List.mem_cons_self r rs) with hcat | htag
    · have hstep : taxStep acc r =
          .ok { acc with cats := dictAppend acc.cats r.object_id r.name } := by
        unfold taxStep
        rw [if_pos hcat]
      obtain ⟨d, hd, hspec⟩ :=
        ih { acc with cats := dictAppend acc.cats r.object_id r.name }
          (fun x hx => hty x (List.mem_cons_of_mem r hx))
      refine ⟨d, ?_, ?_⟩
      · unfold taxLoop
        rw [hstep]
        exact hd
      · intro i
        obtain ⟨hc, ht⟩ := hspec i
        constructor
        · rw [hc]
          simp only [dictGetD_dictAppend]
          rw [List.filter_cons]
          by_cases hid : r.object_id = i
          · have : (r.type == "category" && r.object_id == i) = true := by
              simp [hcat, hid]
            rw [if_pos this]
            simp [hid, List.append_assoc]
          · rw [if_neg (fun hh : i = r.object_id => hid hh.symm)]
            rw [if_neg (by simp [hid])]
            simp
        · rw [ht]
          have : (r.type == "post_tag" && r.object_id == i) = false := by
            simp [hcat]
          rw [List.filter_cons, if_neg (by simp [this])]
    · have hstep : taxStep acc r =
          .ok { acc with tags := dictAppend acc.tags r.object_id r.name } := by
        unfold taxStep
        rw [htag]
        rfl
      obtain ⟨d, hd, hspec⟩ :=
        ih { acc with tags := dictAppend acc.tags r.object_id r.name }
          (fun x hx => hty x (List.mem_cons_of_mem r hx))
      refine ⟨d, ?_, ?_⟩
      · unfold taxLoop
        rw [hstep]
        exact hd
      · intro i
        obtain ⟨hc, ht⟩ := hspec i
        constructor
        · rw [hc]
          have : (r.type == "category" && r.object_id == i) = false := by
            simp [htag]
          rw [List.filter_cons, if_neg (by simp [this])]
        · rw [ht]
          simp only [dictGetD_dictAppend]
          rw [List.filter_cons]
          by_cases hid : r.object_id = i
          · have : (r.type == "post_tag" && r.object_id == i) = true := by
              simp [htag, hid]
            rw [if_pos this]
            simp [hid, List.append_assoc]
          · rw [if_neg (fun hh : i = r.object_id => hid hh.symm)]
            rw [if_neg (by simp [hid])]
            simp


/-- C8 (amended): the taxonomy query keeps exactly the rows whose taxonomy
type is `category` or `post_tag`, whose post is of type `post`, and whose post
status is not `inherit` — with no requirement that the post be published —
and `_get_taxonomy` builds the mappings from those rows alone. -/
theorem C8_taxonomy_filter :
    (∀ table : List TaxRow,
      sqlTaxonomyRows table = sqlTaxonomyRows (table.filter taxWhere)) ∧
    (∀ (table : List TaxRow) (r : TaxRow), r ∈ sqlTaxonomyRows table →
      (r.type = "category" ∨ r.type = "post_tag") ∧
        r.post_type = "post" ∧ r.post_status ≠ "inherit") ∧
    (∀ table : List TaxRow, ∃ d, _get_taxonomy table = .ok d) := by
  refine ⟨?_, ?_, ?_⟩
  · intro table
    unfold sqlTaxonomyRows
    rw [List.filter_filter]
    congr 1
    exact (List.filter_congr (fun x _ => by rw [Bool.and_self])).symm
  · intro table r hr
    have h := mem_sqlTaxonomyRows_where hr
    unfold taxWhere at h
    simp only [Bool.and_eq_true, Bool.or_eq_true, Bool.not_eq_true', decide_eq_true_eq,
      decide_eq_false_iff_not] at h
    exact ⟨h.1.1, h.1.2, h.2⟩
  · intro table
    obtain ⟨d, hd, -⟩ := taxLoop_spec (sqlTaxonomyRows table) emptyDicts
      (fun r hr => taxWhere_type (mem_sqlTaxonomyRows_where hr))
    exact ⟨d, hd⟩

/-- C8 counterexample: a `category` row of a draft (unpublished) post passes
the query filter and contributes an entry to the category mapping, refuting
the claim that no unpublished post contributes. -/
theorem C8_counterexample :
    _get_taxonomy [{ object_id := 1, name := "c1", type := "category",
                     post_type := "post", post_status := "draft" }] =
      .ok { cats := [(1, ["c1"])], tags := [] } ∧
    ({ object_id := 1, name := "c1", type := "category",
       post_type := "post", post_status := "draft" } : TaxRow).post_status ≠ "publish" :=
  ⟨rfl, by decide⟩

/-- C7: the `tags:` and `categories:` header lines render the names from the
taxonomy mappings joined with `", "` in exactly the order the taxonomy query
returned the rows, and a post id absent from a mapping renders `tags: []`
(resp. `categories: []`). -/
theorem C7_tag_category_lines (table : List TaxRow) (post : Post)
    (resolved cm pb : String) :
    (∃ d, _get_taxonomy table = .ok d ∧
      (post_header_fields post resolved (dictGetD d.tags post.id)
          (dictGetD d.cats post.id) cm pb).get? 6 =
        some ("tags: [" ++ joinSep ", "
          (((sqlTaxonomyRows table).filter
            (fun r => r.type == "post_tag" && r.object_id == post.id)).map
            (fun r => r.name)) ++ "]") ∧
      (post_header_fields post resolved (dictGetD d.tags post.id)
          (dictGetD d.cats post.id) cm pb).get? 7 =
        some ("categories: [" ++ joinSep ", "
          (((sqlTaxonomyRows table).filter
            (fun r => r.type == "category" && r.object_id == post.id)).map
            (fun r => r.name)) ++ "]")) ∧
    (∀ td cd : List (Nat × List String), dictGet td post.id = none →
      (post_header_fields post resolved (dictGetD td post.id)
          (dictGetD cd post.id) cm pb).get? 6 = some "tags: []") ∧
    (∀ td cd : List (Nat × List String), dictGet cd post.id = none →
      (post_header_fields post resolved (dictGetD td post.id)
          (dictGetD cd post.id) cm pb).get? 7 = some "categories: []") := by
  refine ⟨?_, ?_, ?_⟩
  · obtain ⟨d, hd, hspec⟩ := taxLoop_spec (sqlTaxonomyRows table) emptyDicts
      (fun r hr => taxWhere_type (mem_sqlTaxonomyRows_where hr))
    obtain ⟨hc, ht⟩ := hspec post.id
    refine ⟨d, hd, ?_, ?_⟩
    · show some ("tags: [" ++ joinSep ", " (dictGetD d.tags post.id) ++ "]") = _
      rw [ht]
      rfl
    · show some ("categories: [" ++ joinSep ", " (dictGetD d.cats post.id) ++ "]") = _
      rw [hc]
      rfl
  · intro td cd h
    show some ("tags: [" ++ joinSep ", " (dictGetD td post.id) ++ "]") = _
    rw [dictGetD, h]
    rfl
  · intro td cd h
    show some ("categories: [" ++ joinSep ", " (dictGetD cd post.id) ++ "]") = _
    rw [dictGetD, h]
    rfl

theorem C7_witness :
    (∃ d, _get_taxonomy
        [{ object_id := 3, name := "t1", type := "post_tag",
           post_type := "post", post_status := "publish" }] = .ok d ∧
      (post_header_fields
          { id := 3, post_title := "T", post_type := "post", post_status := "publish",
            post_name := "t", post_date := "d", post_modified := "d",
            post_content := "b", comment_status := "open", author := "A" }
          "t" (dictGetD d.tags 3) (dictGetD d.cats 3) "true" "true").get? 6 =
        some ("tags: [" ++ joinSep ", "
          (((sqlTaxonomyRows
            [{ object_id := 3, name := "t1", type := "post_tag",
               post_type := "post", post_status := "publish" }]).filter
            (fun r => r.type == "post_tag" && r.object_id == 3)).map
            (fun r => r.name)) ++ "]") ∧
      (post_header_fields
          { id := 3, post_title := "T", post_type := "post", post_status := "publish",
            post_name := "t", post_date := "d", post_modified := "d",
            post_content := "b", comment_status := "open", author := "A" }
          "t" (dictGetD d.tags 3) (dictGetD d.cats 3) "true" "true").get? 7 =
        some ("categories: [" ++ joinSep ", "
          (((sqlTaxonomyRows
            [{ object_id := 3, name := "t1", type := "post_tag",
               post_type := "post", post_status := "publish" }]).filter
            (fun r => r.type == "category" && r.object_id == 3)).map
            (fun r => r.name)) ++ "]")) ∧
    (post_header_fields
        { id := 3, post_title := "T", post_type := "post", post_status := "publish",
          post_name := "t", post_date := "d", post_modified := "d",
          post_content := "b", comment_status := "open", author := "A" }
        "t" (dictGetD [] 3) (dictGetD [] 3) "true" "true").get? 6 = some "tags: []" :=
  ⟨(C7_tag_category_lines
      [{ object_id := 3, name := "t1", type := "post_tag",
         post_type := "post", post_status := "publish" }]
      { id := 3, post_title := "T", post_type := "post", post_status := "publish",
        post_name := "t", post_date := "d", post_modified := "d",
        post_content := "b", comment_status := "open", author := "A" }
      "t" "true" "true").1,
   (C7_tag_category_lines
      ([] : List TaxRow)
      { id := 3, post_title := "T", post_type := "post", post_status := "publish",
        post_name := "t", post_date := "d", post_modified := "d",
        post_content := "b", comment_status := "open", author := "A" }
      "t" "true" "true").2.1 [] [] rfl⟩


theorem missing_name_check_cases (c : Nat) (p : Post) :
    missing_name_check c p =
      if ((strip_chars p.post_name.data).isEmpty || p.post_name.data.contains '%') then
        (if (strip_chars (title_to_name p.post_title).data).isEmpty then
          { name := missingName c, warned := true, counter := c + 1 }
        else { name := title_to_name p.post_title, warned := true, counter := c })
      else { name := p.post_name, warned := false, counter := c } := rfl

theorem missing_name_check_fallback {p : Post} (h : usesFallback p = true) (c : Nat) :
    missing_name_check c p =
      { name := missingName c, warned := true, counter := c + 1 } := by
  unfold usesFallback at h
  simp only [Bool.and_eq_true] at h
  rw [missing_name_check_cases, if_pos h.1, if_pos h.2]

theorem missing_name_check_counter (c : Nat) (p : Post) :
    (missing_name_check c p).counter = c + (if usesFallback p then 1 else 0) := by
  by_cases h1 : ((strip_chars p.post_name.data).isEmpty || p.post_name.data.contains '%') = true
  · by_cases h2 : (strip_chars (title_to_name p.post_title).data).isEmpty = true
    · have hf : usesFallback p = true := by rw [usesFallback, h1, h2]; rfl
      rw [hf, missing_name_check_fallback hf c]
      simp
    · have h2' := Bool.eq_false_iff.mpr h2
      have hf : usesFallback p = false := by rw [usesFallback, h1, h2']; rfl
      rw [hf, missing_name_check_cases, if_pos h1, if_neg h2]
      simp
  · have h1' := Bool.eq_false_iff.mpr h1
    have hf : usesFallback p = false := by rw [usesFallback, h1']; rfl
    rw [hf, missing_name_check_cases, if_neg h1]
    simp

theorem resolveAll_getElem? :
    ∀ (posts : List Post) (c i : Nat),
      (resolveAll c posts)[i]? =
        (posts[i]?).map
          (fun p => missing_name_check (c + (posts.take i).countP usesFallback) p) := by
  intro posts
  induction posts with
  | nil => intro c i; simp [resolveAll]
  | cons q qs ih =>
    intro c i
    cases i with
    | zero => simp [resolveAll]
    | succ i =>
      rw [show resolveAll c (q :: qs) =
          missing_name_check c q :: resolveAll (missing_name_check c q).counter qs from rfl]
      rw [List.getElem?_cons_succ, ih, missing_name_check_counter]
      simp only [List.take_succ_cons, List.countP_cons]
      by_cases h : usesFallback q = true
      · have hone : (if usesFallback q = true then 1 else 0) = 1 := by simp [h]
        simp only [List.getElem?_cons_succ, hone]
        have harith : c + 1 + List.countP usesFallback (List.take i qs) =
            c + (List.countP usesFallback (List.take i qs) + 1) := by omega
        rw [harith]
      · have hzero : (if usesFallback q = true then 1 else 0) = 0 := by simp [h]
        simp only [List.getElem?_cons_succ, hzero, Nat.add_zero]

theorem countP_take_lt :
    ∀ (posts : List Post) (i j : Nat) (p : Post), i < j →
      posts[i]? = some p → usesFallback p = true →
      (posts.take i).countP usesFallback < (posts.take j).countP usesFallback := by
  intro posts
  induction posts with
  | nil => intro i j p _ hp; simp at hp
  | cons q qs ih =>
    intro i j p hij hp hf
    cases i with
    | zero =>
      simp at hp
      cases j with
      | zero => omega
      | succ j =>
        subst hp
        have hone : (if usesFallback q = true then 1 else 0) = 1 := by simp [hf]
        simp only [List.take_succ_cons, List.countP_cons, List.take_zero,
          List.countP_nil, hone]
        omega
    | succ i =>
      cases j with
      | zero => omega
      | succ j =>
        simp only [List.take_succ_cons, List.countP_cons]
        exact Nat.add_lt_add_right (ih i j p (by omega) (by simpa using hp) hf) _

/-- C6: in the sequence of Name Resolver calls of a run (counter started at
0), the i-th call that reaches the generated-name fallback returns
`missing-name-N` where `N` counts the fallback uses before it; hence two
distinct fallback calls receive strictly increasing `N` and distinct names,
and no counter value is reused. -/
theorem C6_fallback_names_distinct (posts : List Post) (i j : Nat) (p q : Post)
    (r s : NameResult) (hij : i < j)
    (hp : posts[i]? = some p) (hq : posts[j]? = some q)
    (hfp : usesFallback p = true) (hfq : usesFallback q = true)
    (hr : (resolveAll 0 posts)[i]? = some r)
    (hs : (resolveAll 0 posts)[j]? = some s) :
    r.name = missingName ((posts.take i).countP usesFallback) ∧
    s.name = missingName ((posts.take j).countP usesFallback) ∧
    (posts.take i).countP usesFallback < (posts.take j).countP usesFallback ∧
    r.name ≠ s.name := by
  rw [resolveAll_getElem?, hp] at hr
  rw [resolveAll_getElem?, hq] at hs
  have hr' : missing_name_check (0 + (posts.take i).countP usesFallback) p = r := by
    simpa using hr
  have hs' : missing_name_check (0 + (posts.take j).countP usesFallback) q = s := by
    simpa using hs
  have hrn : r.name = missingName ((posts.take i).countP usesFallback) := by
    rw [← hr', missing_name_check_fallback hfp]
    simp
  have hsn : s.name = missingName ((posts.take j).countP usesFallback) := by
    rw [← hs', missing_name_check_fallback hfq]
    simp
  have hlt := countP_take_lt posts i j p hij hp hfp
  refine ⟨hrn, hsn, hlt, ?_⟩
  rw [hrn, hsn]
  intro he
  have := missingName_inj he
  omega


theorem C6_witness :
    (missing_name_check 0
      { id := 9, post_title := "!!!", post_type := "post", post_status := "publish",
        post_name := "", post_date := "d", post_modified := "d",
        post_content := "b", comment_status := "open", author := "A" }).name ≠
    (missing_name_check
      (missing_name_check 0
        { id := 9, post_title := "!!!", post_type := "post", post_status := "publish",
          post_name := "", post_date := "d", post_modified := "d",
          post_content := "b", comment_status := "open", author := "A" }).counter
      { id := 9, post_title := "!!!", post_type := "post", post_status := "publish",
        post_name := "", post_date := "d", post_modified := "d",
        post_content := "b", comment_status := "open", author := "A" }).name :=
  (C6_fallback_names_distinct
    [{ id := 9, post_title := "!!!", post_type := "post", post_status := "publish",
       post_name := "", post_date := "d", post_modified := "d",
       post_content := "b", comment_status := "open", author := "A" },
     { id := 9, post_title := "!!!", post_type := "post", post_status := "publish",
       post_name := "", post_date := "d", post_modified := "d",
       post_content := "b", comment_status := "open", author := "A" }]
    0 1 _ _ _ _ (by omega) rfl rfl (by decide) (by decide) rfl rfl).2.2.2


theorem splitLines_ne_nil (l : List Char) : splitLines l ≠ [] := by
  cases l with
  | nil => simp [splitLines]
  | cons c cs =>
    unfold splitLines
    by_cases h : c = '\n'
    · rw [if_pos h]; simp
    · rw [if_neg h]; simp

theorem splitLines_append {a : List Char} (b : List Char) (h : '\n' ∉ a) :
    splitLines (a ++ '\n' :: b) = a :: splitLines b := by
  induction a with
  | nil => simp [splitLines]
  | cons x xs ih =>
    have hx : ¬ x = '\n' := fun hh => h (hh ▸ List.mem_cons_self x xs)
    have ih' := ih (fun hh => h (List.mem_cons_of_mem x hh))
    rw [List.cons_append, splitLines, if_neg hx, ih']
    rfl

theorem joinLines_splitLines : ∀ l : List Char, joinLines (splitLines l) = l := by
  intro l
  induction l with
  | nil => rfl
  | cons c cs ih =>
    rw [splitLines]
    by_cases h : c = '\n'
    · rw [if_pos h]
      subst h
      cases hs : splitLines cs with
      | nil => exact absurd hs (splitLines_ne_nil cs)
      | cons x xs =>
        show joinLines ([] :: x :: xs) = '\n' :: cs
        unfold joinLines
        rw [← hs, ih]
        rfl
    · rw [if_neg h]
      cases hs : splitLines cs with
      | nil => exact absurd hs (splitLines_ne_nil cs)
      | cons x xs =>
        have hcs : joinLines (x :: xs) = cs := hs ▸ ih
        show joinLines ((c :: x) :: xs) = c :: cs
        rw [← hcs]
        cases xs <;> rfl

theorem splitAtMarker_spec (marker : List Char) :
    ∀ (pre suf : List (List Char)), (∀ l ∈ pre, l ≠ marker) →
      splitAtMarker marker (pre ++ marker :: suf) = some (pre, suf) := by
  intro pre
  induction pre with
  | nil => intro suf _; simp [splitAtMarker]
  | cons x xs ih =>
    intro suf h
    have hx : ¬ x = marker := h x (List.mem_cons_self x xs)
    rw [List.cons_append]
    unfold splitAtMarker
    rw [if_neg hx, ih suf (fun l hl => h l (List.mem_cons_of_mem x hl))]

theorem takeWhile_stop (p : Char → Bool) :
    ∀ (pre : List Char) (x : Char) (rest : List Char),
      (∀ c ∈ pre, p c = true) → p x = false →
      (pre ++ x :: rest).takeWhile p = pre := by
  intro pre
  induction pre with
  | nil => intro x rest _ hx; simp [List.takeWhile, hx]
  | cons c cs ih =>
    intro x rest h hx
    rw [List.cons_append]
    rw [List.takeWhile_cons_of_pos (h c (List.mem_cons_self c cs))]
    rw [ih x rest (fun d hd => h d (List.mem_cons_of_mem c hd)) hx]

theorem WP_COMMENTS_values {s v : String} (h : WP_COMMENTS s = some v) :
    v = "true" ∨ v = "false" := by
  unfold WP_COMMENTS at h
  split_ifs at h
  · exact Or.inr (by injection h with hh; exact hh.symm)
  · exact Or.inl (by injection h with hh; exact hh.symm)

theorem page_content_data (t d cmt f : String) :
    (page_content t d cmt f).data =
      "---".data ++ '\n' ::
      ("layout: page".data ++ '\n' ::
      (("title: \"".data ++ t.data ++ ['"']) ++ '\n' ::
      (("date: ".data ++ d.data) ++ '\n' ::
      (("comments: ".data ++ cmt.data) ++ '\n' ::
      ("sharing: true".data ++ '\n' ::
      ("footer: true".data ++ '\n' ::
      ("---".data ++ '\n' :: (f.data ++ ['\n'])))))))) := by
  rw [page_content]
  simp only [String.data_append]
  simp [List.append_assoc, List.cons_append, List.nil_append]

theorem parse_page_content (t d cmt f : String)
    (ht : '\n' ∉ t.data) (hd : '\n' ∉ d.data)
    (hcmt : cmt = "true" ∨ cmt = "false") :
    parse_page_file (page_content t d cmt f) =
      some (pageFieldNames, f ++ "\n") := by
  have h2 : '\n' ∉ ("title: \"".data ++ t.data ++ ['"']) := by
    intro hm
    rcases List.mem_append.mp hm with hm1 | hm2
    · rcases List.mem_append.mp hm1 with hm3 | hm4
      · exact absurd hm3 (by decide)
      · exact ht hm4
    · exact absurd hm2 (by decide)
  have h3 : '\n' ∉ ("date: ".data ++ d.data) := by
    intro hm
    rcases List.mem_append.mp hm with hm1 | hm2
    · exact absurd hm1 (by decide)
    · exact hd hm2
  have h4 : '\n' ∉ ("comments: ".data ++ cmt.data) := by
    rcases hcmt with rfl | rfl
    · decide
    · decide
  have hne2 : ("title: \"".data ++ t.data ++ ['"']) ≠ "---".data := by
    rw [show ("title: \"" : String).data = 't' :: "itle: \"".data from by decide]
    simp only [List.cons_append]
    intro hh
    injection hh with hh1 _
    exact absurd hh1 (by decide)
  have hne3 : ("date: ".data ++ d.data) ≠ "---".data := by
    rw [show ("date: " : String).data = 'd' :: "ate: ".data from by decide]
    simp only [List.cons_append]
    intro hh
    injection hh with hh1 _
    exact absurd hh1 (by decide)
  have hne4 : ("comments: ".data ++ cmt.data) ≠ "---".data := by
    rcases hcmt with rfl | rfl
    · decide
    · decide
  have hsplit : splitLines (page_content t d cmt f).data =
      "---".data :: "layout: page".data ::
        ("title: \"".data ++ t.data ++ ['"']) ::
        ("date: ".data ++ d.data) ::
        ("comments: ".data ++ cmt.data) ::
        "sharing: true".data :: "footer: true".data :: "---".data ::
        splitLines (f.data ++ ['\n']) := by
    rw [page_content_data]
    rw [splitLines_append _ (by decide)]
    rw [splitLines_append _ (by decide)]
    rw [splitLines_append _ h2]
    rw [splitLines_append _ h3]
    rw [splitLines_append _ h4]
    rw [splitLines_append _ (by decide)]
    rw [splitLines_append _ (by decide)]
    rw [splitLines_append _ (by decide)]
  have hnemem : ∀ l ∈ ["layout: page".data,
      ("title: \"".data ++ t.data ++ ['"']),
      ("date: ".data ++ d.data),
      ("comments: ".data ++ cmt.data),
      "sharing: true".data, "footer: true".data], l ≠ "---".data := by
    intro l hl
    simp only [List.mem_cons, List.not_mem_nil, or_false] at hl
    rcases hl with rfl | rfl | rfl | rfl | rfl | rfl
    · decide
    · exact hne2
    · exact hne3
    · exact hne4
    · decide
    · decide
  have hsp := splitAtMarker_spec "---".data
    ["layout: page".data,
      ("title: \"".data ++ t.data ++ ['"']),
      ("date: ".data ++ d.data),
      ("comments: ".data ++ cmt.data),
      "sharing: true".data, "footer: true".data]
    (splitLines (f.data ++ ['\n'])) hnemem
  have hf2 : fieldNameOf ("title: \"".data ++ t.data ++ ['"']) = "title".data := by
    rw [fieldNameOf]
    rw [show "title: \"".data ++ t.data ++ ['"'] =
      "title".data ++ ':' :: (" \"".data ++ t.data ++ ['"']) from by
        rw [show ("title: \"" : String).data =
          "title".data ++ ':' :: " \"".data from by decide]
        simp [List.append_assoc]]
    exact takeWhile_stop _ "title".data ':' _ (by decide) (by decide)
  have hf3 : fieldNameOf ("date: ".data ++ d.data) = "date".data := by
    rw [fieldNameOf]
    rw [show "date: ".data ++ d.data =
      "date".data ++ ':' :: (" ".data ++ d.data) from by
        rw [show ("date: " : String).data =
          "date".data ++ ':' :: " ".data from by decide]
        simp [List.append_assoc]]
    exact takeWhile_stop _ "date".data ':' _ (by decide) (by decide)
  have hf4 : fieldNameOf ("comments: ".data ++ cmt.data) = "comments".data := by
    rcases hcmt with rfl | rfl
    · decide
    · decide
  have hmk : String.mk (f.data ++ ['\n']) = f ++ "\n" := by
    rw [show f.data ++ ['\n'] = (f ++ "\n").data from by
      rw [String.data_append]]
  rw [parse_page_file, hsplit]
  rw [List.headD_cons, List.tail_cons, if_pos rfl]
  rw [show "layout: page".data ::
        ("title: \"".data ++ t.data ++ ['"']) ::
        ("date: ".data ++ d.data) ::
        ("comments: ".data ++ cmt.data) ::
        "sharing: true".data :: "footer: true".data :: "---".data ::
        splitLines (f.data ++ ['\n']) =
      ["layout: page".data,
        ("title: \"".data ++ t.data ++ ['"']),
        ("date: ".data ++ d.data),
        ("comments: ".data ++ cmt.data),
        "sharing: true".data, "footer: true".data] ++ "---".data ::
        splitLines (f.data ++ ['\n']) from rfl]
  rw [hsp]
  simp only [Option.map_some']
  rw [joinLines_splitLines]
  simp only [List.map_cons, List.map_nil, hf2, hf3, hf4, hmk]
  rw [show fieldNameOf "layout: page".data = "layout".data from by decide]
  rw [show fieldNameOf "sharing: true".data = "sharing".data from by decide]
  rw [show fieldNameOf "footer: true".data = "footer".data from by decide]
  rfl


/-- C3 (amended): writing a page record (whose title and truncated date
string contain no newline) and parsing the file back yields a header block
with exactly the six pseudo-fields layout, title, date, comments, sharing,
footer, in that order, and a body equal to the Content Fixer output followed
by one trailing newline (the writer's template appends a final newline). -/
theorem C3_page_roundtrip (c : Nat) (page : Post) (f : PageFile) (c' : Nat)
    (hok : dump_single_page c page = .ok (f, c'))
    (ht : '\n' ∉ page.post_title.data)
    (hdt : '\n' ∉ (dropLast3 page.post_date).data) :
    parse_page_file f.content =
      some (pageFieldNames, fix_post_content page.post_content ++ "\n") := by
  unfold dump_single_page at hok
  cases hcm : WP_COMMENTS page.comment_status with
  | none => rw [hcm] at hok; cases hok
  | some v =>
    rw [hcm] at hok
    rw [Except.ok.injEq, Prod.mk.injEq] at hok
    have hcont : f.content = page_content page.post_title (dropLast3 page.post_date) v
        (fix_post_content page.post_content) := by rw [← hok.1]
    rw [hcont]
    exact parse_page_content _ _ _ _ ht hdt (WP_COMMENTS_values hcm)

theorem C3_witness :
    parse_page_file
      (({ dir := "a", filename := "index.md",
          content := "---\nlayout: page\ntitle: \"A\"\ndate: 2020-01-01 00:00\ncomments: true\nsharing: true\nfooter: true\n---\nhello\n" } : PageFile)).content =
      some (pageFieldNames, fix_post_content "hello" ++ "\n") :=
  C3_page_roundtrip 0
    { id := 7, post_title := "A", post_type := "page", post_status := "publish",
      post_name := "a", post_date := "2020-01-01 00:00:00", post_modified := "d",
      post_content := "hello", comment_status := "open", author := "A" }
    _ 0 rfl (by decide) (by decide)

/-- C3 counterexample: for a concrete page with body `"hello"`, the body read
back from the written file is `"hello\n"`, not the Content Fixer output
`"hello"` — the claim's body-equality clause fails as stated. -/
theorem C3_counterexample :
    dump_single_page 0
      { id := 7, post_title := "A", post_type := "page", post_status := "publish",
        post_name := "a", post_date := "2020-01-01 00:00:00", post_modified := "d",
        post_content := "hello", comment_status := "open", author := "A" } =
      .ok ({ dir := "a", filename := "index.md",
             content := "---\nlayout: page\ntitle: \"A\"\ndate: 2020-01-01 00:00\ncomments: true\nsharing: true\nfooter: true\n---\nhello\n" }, 0) ∧
    parse_page_file
      "---\nlayout: page\ntitle: \"A\"\ndate: 2020-01-01 00:00\ncomments: true\nsharing: true\nfooter: true\n---\nhello\n" =
      some (pageFieldNames, "hello\n") ∧
    ("hello\n" : String) ≠ fix_post_content "hello" := by
  refine ⟨rfl, ?_, by decide⟩
  rfl

/-- C8 witness: the amended filter conditions hold for a concrete row of the
sorted, filtered query result. -/
theorem C8_witness :
    (({ object_id := 3, name := "t1", type := "post_tag",
        post_type := "post", post_status := "publish" } : TaxRow).type = "category" ∨
      ({ object_id := 3, name := "t1", type := "post_tag",
         post_type := "post", post_status := "publish" } : TaxRow).type = "post_tag") ∧
    ({ object_id := 3, name := "t1", type := "post_tag",
       post_type := "post", post_status := "publish" } : TaxRow).post_type = "post" ∧
    ({ object_id := 3, name := "t1", type := "post_tag",
       post_type := "post", post_status := "publish" } : TaxRow).post_status ≠ "inherit" :=
  C8_taxonomy_filter.2.1
    [{ object_id := 3, name := "t1", type := "post_tag",
       post_type := "post", post_status := "publish" }]
    { object_id := 3, name := "t1", type := "post_tag",
      post_type := "post", post_status := "publish" }
    (by decide)

end WP
